import Mathlib

/-!
Verification of the graph data model in `GNN/graph_class_old.py`
(`GraphObject` / `GraphTensor`).

The embedding is value-level and exact:

* numpy float arrays are modelled as lists of rationals (`List ℚ`); the
  numeric claims of the spec concern the exact weight formulas (1, 1/A,
  1/in-degree, 1/N), which the rational model captures exactly;
* `scipy.sparse.coo_matrix` is modelled as an explicit shape plus a list of
  (row, col, value) triples in stored order (`Coo` below);
* code that can raise (`ValueError`, `ZeroDivisionError`, broadcasting
  failures, the index-bounds check performed by the `coo_matrix`
  constructor) is modelled with `Option` / `Except String`;
* the in-place mutation performed by `GraphObject.merge` on the arrays
  returned by the getters is modelled separately with an explicit store
  (see the `store` section below).
-/

namespace GNNGraph

/-- Sparse COO matrix: declared shape plus (row, col, value) triples in stored
order, as in `scipy.sparse.coo_matrix`.  Duplicate (row, col) pairs are legal
and stand for implicit summation, exactly as in scipy. -/
structure Coo where
  nrows : ℕ
  ncols : ℕ
  entries : List (ℕ × ℕ × ℚ)
deriving DecidableEq, Inhabited

/-- One row of the numpy `arcs` matrix: `[ID Node From | ID Node To | Arc Label]`.
The first two columns hold node indices, the rest is the arc label. -/
abbrev Arc := ℕ × ℕ × List ℚ

/-- The state of a constructed `GraphObject`: the arrays stored by
`GraphObject.__init__` (`graph_class_old.py`, lines 42-77). -/
structure GraphObject where
  nodes : List (List ℚ)
  arcs : List Arc
  targets : List (List ℚ)
  set_mask : List Bool
  output_mask : List Bool
  sample_weights : List ℚ
  aggregation_mode : String
  ArcNode : Coo
  Adjacency : Coo
  NodeGraph : Coo
deriving DecidableEq, Inhabited

/-- The three recognized aggregation modes (line 67 / line 126). -/
def validModes : List String := ["average", "normalized", "sum"]

/-- The `sample_weights` constructor argument: a scalar (int/float) or a
numpy vector. -/
inductive Sw where
  | scalar : ℚ → Sw
  | vector : List ℚ → Sw
deriving DecidableEq

/-- Line 48: `self.sample_weights = sample_weights * np.ones(self.targets.shape[0])`.
numpy broadcasting: a scalar is replicated; a vector must have length equal to
the number of target rows, or length 1, or the target count must be 1;
otherwise numpy raises a broadcast `ValueError` (modelled as `none`). -/
def broadcastSw : Sw → ℕ → Option (List ℚ)
  | Sw.scalar q, t => some (List.replicate t q)
  | Sw.vector v, t =>
      if v.length = t then some v
      else if v.length = 1 then some (List.replicate t (v.getD 0 0))
      else if t = 1 then some v
      else none

/-- Line 56: `lenMask = {'n': nodes.shape[0], 'a': arcs.shape[0], 'g': nodes.shape[0]}`.
The dictionary lookup raises `KeyError` (here `none`) for any other key, but in
the source it is only evaluated when `set_mask is None` (lazy conditional). -/
def lenMaskVal (problem_based : String) (numNodes numArcs : ℕ) : Option ℕ :=
  if problem_based = "n" then some numNodes
  else if problem_based = "a" then some numArcs
  else if problem_based = "g" then some numNodes
  else none

/-- Lines 98-121, `GraphObject.buildArcNode`, over explicit arguments:
`col = arcs[:, 1]`, `row = arange(len(col))`, `values = ones(len(col))`,
rescaled by the aggregation mode:
* `'normalized'`: `values * float(1/len(col))` — raises `ZeroDivisionError`
  when there are no arcs (`none` here);
* `'average'`: `np.unique(col, return_inverse=True, return_counts=True)`
  yields for position `i` the multiplicity of `col[i]` in `col`, so
  `values[i] = 1 / count(col, col[i])`;
* any other mode (the constructor only lets `'sum'` through): `values = ones`.
The final `coo_matrix((values, (row, col)), shape=(A, N))` validates that all
column indices are `< N` and raises `ValueError` otherwise (`none` here). -/
def buildArcNodeAux (arcs : List Arc) (n : ℕ) (mode : String) : Option Coo :=
  let col : List ℕ := arcs.map (fun a => a.2.1)
  let valsQ : Option (List ℚ) :=
    if mode = "normalized" then
      (if col.length = 0 then none
       else some (List.replicate col.length ((1 : ℚ) / (col.length : ℚ))))
    else if mode = "average" then
      some (col.map (fun d => (1 : ℚ) / ((col.count d : ℕ) : ℚ)))
    else some (List.replicate col.length (1 : ℚ))
  match valsQ with
  | none => none
  | some vals =>
      if col.all (fun c => decide (c < n)) then
        some { nrows := arcs.length, ncols := n,
               entries := (List.range col.length).zip (col.zip vals) }
      else none

/-- Lines 90-95, `GraphObject.buildAdjacency`, over explicit arguments:
`values = self.ArcNode.data`, `indices = zip(*arcs[:, :2])`,
`coo_matrix((values, indices), shape=(N, N))`.  With no arcs at all,
`zip(*arcs[:, :2])` is an empty iterator and scipy's unpacking
`(row, col) = ij` raises `ValueError` (`none` here) — so no graph with an
empty arc list is ever constructed.  The `coo_matrix` constructor also raises
`ValueError` when the data and index arrays disagree in length or an index is
out of bounds (`none` here). -/
def buildAdjacencyAux (arcs : List Arc) (n : ℕ) (an : Coo) : Option Coo :=
  let values : List ℚ := an.entries.map (fun e => e.2.2)
  if arcs.length = 0 then none
  else if values.length = arcs.length ∧
     arcs.all (fun a => decide (a.1 < n) && decide (a.2.1 < n)) then
    some { nrows := n, ncols := n,
           entries := List.zipWith (fun (a : Arc) v => (a.1, a.2.1, v)) arcs values }
  else none

/-- Lines 132-144, `GraphObject.buildNodeGraph`, over explicit arguments.
For `problem_based == 'g'` the matrix has shape `(N, 1)` with every entry
`1/N` (`data = ones((N,1)) * 1/N`).  For `N = 0` numpy evaluates
`ones((0,1)) * 1 / 0` silently to an empty `(0, 1)` array; the model marks
that corner as a failure (`none`) — it is unreachable, since a constructible
graph has at least one arc with in-range endpoints and hence `N ≥ 1`, and the
stricter model keeps zero-node graph-based graphs out of every theorem.
Otherwise the result is `coo_matrix([])`, whose scipy shape is `(1, 0)` with
no stored entries. -/
def buildNodeGraphAux (problem_based : String) (n : ℕ) : Option Coo :=
  if problem_based = "g" then
    if n = 0 then none
    else some { nrows := n, ncols := 1,
                entries := (List.range n).map (fun i => (i, 0, (1 : ℚ) / (n : ℚ))) }
  else some { nrows := 1, ncols := 0, entries := [] }

/-- Method form of `buildArcNode` (reads `self.arcs`, `self.nodes.shape[0]`,
`self.aggregation_mode`). -/
def GraphObject.buildArcNode (g : GraphObject) : Option Coo :=
  buildArcNodeAux g.arcs g.nodes.length g.aggregation_mode

/-- Method form of `buildAdjacency` (reads `self.arcs`, `self.nodes.shape[0]`,
`self.ArcNode`). -/
def GraphObject.buildAdjacency (g : GraphObject) : Option Coo :=
  buildAdjacencyAux g.arcs g.nodes.length g.ArcNode

/-- Line 71: `self.ArcNode = self.buildArcNode() if ArcNode is None else coo_matrix(ArcNode)`. -/
def resolveArcNode (an : Option Coo) (arcs : List Arc) (n : ℕ) (mode : String) : Option Coo :=
  match an with
  | some a => some a
  | none => buildArcNodeAux arcs n mode

/-- Lines 59: the default `set_mask` is all-ones of length `lenMask[problem_based]`;
a provided mask is kept (`astype(bool)` preserves boolean content). -/
def resolveSetMask (set_mask : Option (List Bool)) (problem_based : String)
    (numNodes numArcs : ℕ) : Option (List Bool) :=
  match set_mask with
  | some m => some m
  | none => (lenMaskVal problem_based numNodes numArcs).map (fun k => List.replicate k true)

/-- Line 77: `self.NodeGraph = self.buildNodeGraph(problem_based) if NodeGraph is None else coo_matrix(NodeGraph)`. -/
def resolveNodeGraph (ng : Option Coo) (problem_based : String) (n : ℕ) : Option Coo :=
  match ng with
  | some m => some m
  | none => buildNodeGraphAux problem_based n

/-- Lines 16-77, `GraphObject.__init__`, as a fallible constructor.  The
statement order of the source is preserved: sample-weight broadcasting
(line 48), mask defaulting (lines 59-61), the mask-length check (line 64),
the aggregation-mode check (line 67), then `ArcNode` (line 71),
`Adjacency` (line 74) and `NodeGraph` (line 77). -/
def initG (nodes : List (List ℚ)) (arcs : List Arc) (targets : List (List ℚ))
    (problem_based : String) (set_mask : Option (List Bool))
    (output_mask : Option (List Bool)) (sample_weights : Sw)
    (NodeGraph : Option Coo) (ArcNode : Option Coo)
    (aggregation_mode : String) : Except String GraphObject :=
  match broadcastSw sample_weights targets.length with
  | none => Except.error "ValueError: could not broadcast sample_weights"
  | some sw =>
    match resolveSetMask set_mask problem_based nodes.length arcs.length with
    | none => Except.error "KeyError"
    | some sm =>
      let om := output_mask.getD (List.replicate sm.length true)
      if sm.length ≠ om.length then
        Except.error "Error - len(<set_mask>) != len(<output_mask>)"
      else if aggregation_mode ∉ validModes then
        Except.error "ERROR: Unknown aggregation mode"
      else
        match resolveArcNode ArcNode arcs nodes.length aggregation_mode with
        | none => Except.error "ZeroDivisionError or ValueError in buildArcNode"
        | some an =>
          match buildAdjacencyAux arcs nodes.length an with
          | none => Except.error "ValueError in buildAdjacency"
          | some adj =>
            match resolveNodeGraph NodeGraph problem_based nodes.length with
            | none => Except.error "ZeroDivisionError in buildNodeGraph"
            | some ng =>
              Except.ok { nodes := nodes, arcs := arcs, targets := targets,
                          set_mask := sm, output_mask := om, sample_weights := sw,
                          aggregation_mode := aggregation_mode,
                          ArcNode := an, Adjacency := adj, NodeGraph := ng }

/-- Lines 124-129, `GraphObject.setAggregation`, with the post-call state made
explicit so that piecemeal mutation would be observable: the mode check happens
before any assignment, then `self.aggregation_mode`, `self.ArcNode` and
`self.Adjacency` are assigned in order; a failure inside `buildArcNode` or
`buildAdjacency` leaves the assignments made so far in place. -/
def GraphObject.setAggregation (g : GraphObject) (mode : String) :
    Except String Unit × GraphObject :=
  if mode ∈ validModes then
    let g1 := { g with aggregation_mode := mode }
    match g1.buildArcNode with
    | none => (Except.error "ZeroDivisionError or ValueError in buildArcNode", g1)
    | some an =>
      let g2 := { g1 with ArcNode := an }
      match g2.buildAdjacency with
      | none => (Except.error "ValueError in buildAdjacency", g2)
      | some adj => (Except.ok (), { g2 with Adjacency := adj })
  else (Except.error "ERROR: Unknown aggregation mode", g)

/-- In-degree of node `v`: the number of arcs whose destination (second entry)
is `v`; this is what `np.unique(col, return_counts=True)` counts in
`buildArcNode`. -/
def GraphObject.inDegree (g : GraphObject) (v : ℕ) : ℕ :=
  (g.arcs.map (fun a => a.2.1)).count v

/-- Line 335: `elem[:, :2] += sum(nodes_lens[:i])` — both endpoint columns of
an arc row are shifted by the cumulative node count of the preceding graphs. -/
def shiftArc (k : ℕ) (a : Arc) : Arc := (a.1 + k, a.2.1 + k, a.2.2)

/-- `sum(nodes_lens[:i])` for position `i` of the merged list. -/
def cumNodes (glist : List GraphObject) (i : ℕ) : ℕ :=
  ((glist.take i).map (fun g => g.nodes.length)).sum

/-- `scipy.sparse.block_diag` (line 345-346): the i-th matrix is placed on the
diagonal, its entries offset by the summed shapes of the preceding matrices. -/
def blockDiag : List Coo → Coo
  | [] => { nrows := 0, ncols := 0, entries := [] }
  | m :: ms =>
      let rest := blockDiag ms
      { nrows := m.nrows + rest.nrows, ncols := m.ncols + rest.ncols,
        entries := m.entries ++
          rest.entries.map (fun e => (e.1 + m.nrows, e.2.1 + m.ncols, e.2.2)) }

/-- Lines 317-350, `GraphObject.merge`, value-level: the getters hand `merge`
copies of each input's arrays (the aliasing side of this is settled separately
with the store model below), each copy's endpoint columns are shifted by the
cumulative node count of the preceding graphs, everything is concatenated in
list order, the per-graph `NodeGraph`s are combined block-diagonally, and the
result is fed to the constructor.  The `glist` type check of lines 327-328 is
enforced by the embedding's types. -/
def mergeG (glist : List GraphObject) (problem_based aggregation_mode : String) :
    Except String GraphObject :=
  let arcs : List Arc :=
    (glist.enum.map (fun p => p.2.arcs.map (shiftArc (cumNodes glist p.1)))).flatten
  let nodes : List (List ℚ) := (glist.map (fun g => g.nodes)).flatten
  let targets : List (List ℚ) := (glist.map (fun g => g.targets)).flatten
  let sm : List Bool := (glist.map (fun g => g.set_mask)).flatten
  let om : List Bool := (glist.map (fun g => g.output_mask)).flatten
  let sw : List ℚ := (glist.map (fun g => g.sample_weights)).flatten
  let ng : Coo := blockDiag (glist.map (fun g => g.NodeGraph))
  initG nodes arcs targets problem_based (some sm) (some om) (Sw.vector sw)
    (some ng) none aggregation_mode

/-- A `tf.SparseTensor`: dense shape plus (row, col, value) triples; keeping
the triples paired models how `tf.sparse.reorder` permutes `indices` and
`values` together. -/
structure SparseTensor where
  dense_shape : ℕ × ℕ
  entries : List (ℕ × ℕ × ℚ)
deriving DecidableEq, Inhabited

/-- Strict row-major (row, then column) order on sparse-tensor entries, the
canonical order `tf.sparse.reorder` establishes. -/
def entryLt (a b : ℕ × ℕ × ℚ) : Bool :=
  decide (a.1 < b.1) || (decide (a.1 = b.1) && decide (a.2.1 < b.2.1))

/-- Stable insertion into a row-major-sorted entry list. -/
def insertEntry (e : ℕ × ℕ × ℚ) : List (ℕ × ℕ × ℚ) → List (ℕ × ℕ × ℚ)
  | [] => [e]
  | x :: xs => if entryLt x e then x :: insertEntry e xs else e :: x :: xs

/-- The canonical (row-major, stable, duplicate-preserving) reordering
performed by `tf.sparse.reorder`, as a stable insertion sort. -/
def sortEntries : List (ℕ × ℕ × ℚ) → List (ℕ × ℕ × ℚ)
  | [] => []
  | x :: xs => insertEntry x (sortEntries xs)

/-- Lines 420-431, `GraphTensor.COO2SparseTensor`: the tensor's indices are
`zip(coo.row, coo.col)` — taken as they are — and its dense shape is
`coo.shape`, also as it is; when a dimension is zero the index list is empty.
`tf.sparse.reorder` then sorts the entries into canonical row-major order
(it does not deduplicate). -/
def COO2SparseTensor (m : Coo) : SparseTensor :=
  let idx : List (ℕ × ℕ × ℚ) :=
    if m.nrows = 0 ∨ m.ncols = 0 then [] else m.entries
  { dense_shape := (m.nrows, m.ncols), entries := sortEntries idx }

/-- The parts of a `GraphTensor` (lines 365-396) the claims are about. -/
structure GraphTensor where
  nodes : List (List ℚ)
  arcs : List Arc
  targets : List (List ℚ)
  set_mask : List Bool
  output_mask : List Bool
  sample_weights : List ℚ
  aggregation_mode : String
  Adjacency : SparseTensor
  ArcNode : SparseTensor
  NodeGraph : SparseTensor
deriving DecidableEq

/-- Lines 410-417, `GraphTensor.fromGraphObject`. -/
def GraphTensor.fromGraphObject (g : GraphObject) : GraphTensor :=
  { nodes := g.nodes, arcs := g.arcs, targets := g.targets,
    set_mask := g.set_mask, output_mask := g.output_mask,
    sample_weights := g.sample_weights, aggregation_mode := g.aggregation_mode,
    Adjacency := COO2SparseTensor g.Adjacency,
    ArcNode := COO2SparseTensor g.ArcNode,
    NodeGraph := COO2SparseTensor g.NodeGraph }

/-!
Store model for the aliasing behaviour of `merge` (claim about frame effects).

numpy arrays live in a heap; a reference is an index into the store.  The
getters of lines 174-199 allocate a fresh copy (`self.xxx.copy()`); the loop
of line 335 mutates, in place, the arrays obtained from `getArcs`.  All array
contents are modelled uniformly as 2-D rational matrices (`Cell`).
-/

/-- One numpy array held in the heap. -/
abbrev Cell := List (List ℚ)

/-- The heap: cell `r` of the store is the array referred to by `r`. -/
abbrev Store := List Cell

/-- The references a `GraphObject` holds to its seven arrays. -/
structure GraphRefs where
  nodes : ℕ
  arcs : ℕ
  targets : ℕ
  set_mask : ℕ
  output_mask : ℕ
  sample_weights : ℕ
  nodegraph : ℕ
deriving DecidableEq

/-- Read a reference (out-of-store references read as an empty array). -/
def readCell (s : Store) (r : ℕ) : Cell := s.getD r []

/-- Allocate a fresh cell, returning the extended store and the new reference. -/
def allocCell (s : Store) (c : Cell) : Store × ℕ := (s ++ [c], s.length)

/-- A getter (`self.xxx.copy()`, lines 174-199): allocate a copy of the
referenced array and hand back a reference to the copy. -/
def getCopy (s : Store) (r : ℕ) : Store × ℕ := allocCell s (readCell s r)

/-- The per-graph tuple built by `get_data` (lines 330-331): a fresh copy of
each of the seven arrays. -/
def getDataOne (s : Store) (g : GraphRefs) : Store × GraphRefs :=
  let (s1, rn) := getCopy s g.nodes
  let (s2, ra) := getCopy s1 g.arcs
  let (s3, rt) := getCopy s2 g.targets
  let (s4, rsm) := getCopy s3 g.set_mask
  let (s5, rom) := getCopy s4 g.output_mask
  let (s6, rsw) := getCopy s5 g.sample_weights
  let (s7, rng) := getCopy s6 g.nodegraph
  (s7, { nodes := rn, arcs := ra, targets := rt, set_mask := rsm,
         output_mask := rom, sample_weights := rsw, nodegraph := rng })

/-- `get_data(glist)`: the copies for every input graph, in list order. -/
def getDataAll : Store → List GraphRefs → Store × List GraphRefs
  | s, [] => (s, [])
  | s, g :: gs =>
      let (s1, c) := getDataOne s g
      let (s2, cs) := getDataAll s1 gs
      (s2, c :: cs)

/-- `elem[:, :2] += k`: add `k` to the first two columns of every row. -/
def addToFirstTwo (k : ℚ) : Cell → Cell :=
  List.map (fun row =>
    match row with
    | a :: b :: rest => (a + k) :: (b + k) :: rest
    | short => short)

/-- One iteration of the loop of line 335: in-place update of the array at
reference `r`. -/
def shiftStep (s : Store) (r : ℕ) (k : ℚ) : Store :=
  s.set r (addToFirstTwo k (readCell s r))

/-- The whole loop of line 335 over the (arc-copy reference, shift) pairs. -/
def shiftLoop : Store → List (ℕ × ℚ) → Store
  | s, [] => s
  | s, (r, k) :: rest => shiftLoop (shiftStep s r k) rest

/-- The mutating phase of `merge` (lines 330-335): gather defensive copies of
every input's arrays, then shift the endpoint columns of the arc copies in
place.  Returns the post-mutation store and the copy references. -/
def mergeMutPhase (s : Store) (gs : List GraphRefs) (shifts : List ℚ) :
    Store × List GraphRefs :=
  let (s1, copies) := getDataAll s gs
  (shiftLoop s1 ((copies.map (fun c => c.arcs)).zip shifts), copies)

/-! ### List helpers -/

theorem mem_zipRange {α : Type*} (d : α) (l : List α) :
    ∀ (s : ℕ) (e : ℕ × α), e ∈ (List.range' s l.length).zip l →
      s ≤ e.1 ∧ e.1 - s < l.length ∧ l.getD (e.1 - s) d = e.2 := by
  induction l with
  | nil => intro s e h; simp at h
  | cons x xs ih =>
      intro s e h
      rw [List.length_cons, List.range'_succ, List.zip_cons_cons] at h
      rcases List.mem_cons.mp h with h1 | h1
      · subst h1; simp
      · obtain ⟨h2, h3, h4⟩ := ih (s + 1) e h1
        refine ⟨by omega, by simp; omega, ?_⟩
        have he : e.1 - s = (e.1 - (s + 1)) + 1 := by omega
        rw [he, List.getD_cons_succ]; exact h4

theorem mem_zip_range_getD {α : Type*} (d : α) (l : List α) (e : ℕ × α)
    (h : e ∈ (List.range l.length).zip l) : e.1 < l.length ∧ l.getD e.1 d = e.2 := by
  rw [List.range_eq_range'] at h
  obtain ⟨_, h2, h3⟩ := mem_zipRange d l 0 e h
  constructor
  · simpa using h2
  · simpa using h3

theorem getD_zip_of_lt {α β : Type*} (l1 : List α) (l2 : List β) (i : ℕ) (d1 : α) (d2 : β)
    (h1 : i < l1.length) (h2 : i < l2.length) :
    (l1.zip l2).getD i (d1, d2) = (l1.getD i d1, l2.getD i d2) := by
  have hl : i < (l1.zip l2).length := by rw [List.length_zip]; omega
  rw [List.getD_eq_getElem _ _ hl, List.getD_eq_getElem _ _ h1, List.getD_eq_getElem _ _ h2,
    List.getElem_zip]

theorem getD_map_of_lt {α β : Type*} (f : α → β) (l : List α) (i : ℕ) (d : α) (db : β)
    (h : i < l.length) : (l.map f).getD i db = f (l.getD i d) := by
  have hm : i < (l.map f).length := by rw [List.length_map]; exact h
  rw [List.getD_eq_getElem _ _ hm, List.getD_eq_getElem _ _ h, List.getElem_map]

theorem length_filter_zip_snd {α β : Type*} (p : β → Bool) :
    ∀ (l1 : List α) (l2 : List β),
      ((l1.zip l2).filter fun x => p x.2).length = ((l2.take l1.length).filter p).length := by
  intro l1
  induction l1 with
  | nil => intro l2; simp
  | cons a l1 ih =>
      intro l2
      cases l2 with
      | nil => simp
      | cons b l2 =>
          rw [List.zip_cons_cons, List.length_cons, List.take_succ_cons,
            List.filter_cons, List.filter_cons]
          cases p b <;> simp [ih]

theorem length_filter_zip_count (v : ℕ) :
    ∀ (col : List ℕ) (vals : List ℚ), vals.length = col.length →
      ((col.zip vals).filter fun x => decide (x.1 = v)).length = col.count v := by
  intro col
  induction col with
  | nil => intro vals _; simp
  | cons c col ih =>
      intro vals h
      cases vals with
      | nil => simp at h
      | cons w vals =>
          rw [List.zip_cons_cons, List.filter_cons, List.count_cons]
          by_cases hc : c = v
          · subst hc; simp [ih vals (by simpa using h)]
          · simp [hc, ih vals (by simpa using h)]

theorem snd_eq_of_mem_zip_map {α β : Type*} (f : α → β) :
    ∀ (l : List α) (vals : List β), vals = l.map f →
      ∀ p ∈ l.zip vals, p.2 = f p.1 := by
  intro l
  induction l with
  | nil => intro vals hv p hp; subst hv; simp at hp
  | cons a l ih =>
      intro vals hv p hp
      subst hv
      rw [List.map_cons, List.zip_cons_cons] at hp
      rcases List.mem_cons.mp hp with h | h
      · subst h; rfl
      · exact ih (l.map f) rfl p h

/-! ### Structure of the matrix built by `buildArcNode` -/

/-- Anatomy of any successful `buildArcNode` run: the result has shape
`(A, N)`, its entry list is `arange(A)` zipped with the destination column and
the mode-dependent value vector, every destination index is in bounds, and the
value vector is the one the source computes for the mode. -/
theorem buildArcNodeAux_some {arcs : List Arc} {n : ℕ} {mode : String} {m : Coo}
    (h : buildArcNodeAux arcs n mode = some m) :
    ∃ vals : List ℚ,
      vals.length = arcs.length ∧
      m.nrows = arcs.length ∧ m.ncols = n ∧
      m.entries = (List.range arcs.length).zip ((arcs.map fun a => a.2.1).zip vals) ∧
      (∀ a ∈ arcs, a.2.1 < n) ∧
      ((mode = "normalized" ∧ arcs ≠ [] ∧
          vals = List.replicate arcs.length (1 / (arcs.length : ℚ))) ∨
       (mode ≠ "normalized" ∧ mode = "average" ∧
          vals = (arcs.map fun a => a.2.1).map
            (fun dd => 1 / (((arcs.map fun a => a.2.1).count dd : ℕ) : ℚ))) ∨
       (mode ≠ "normalized" ∧ mode ≠ "average" ∧
          vals = List.replicate arcs.length 1)) := by
  simp only [buildArcNodeAux, List.length_map] at h
  have hbound : ∀ vs : List ℚ,
      (if (arcs.map fun a => a.2.1).all (fun c => decide (c < n)) then
        some (Coo.mk arcs.length n
          ((List.range arcs.length).zip
            ((arcs.map fun a => a.2.1).zip vs))) else none) = some m →
      m.nrows = arcs.length ∧ m.ncols = n ∧
      m.entries = (List.range arcs.length).zip ((arcs.map fun a => a.2.1).zip vs) ∧
      ∀ a ∈ arcs, a.2.1 < n := by
    intro vs hv
    by_cases hall : (arcs.map fun a => a.2.1).all (fun c => decide (c < n)) = true
    · rw [if_pos hall] at hv
      have hm := (Option.some.injEq _ _).mp hv
      subst hm
      refine ⟨rfl, rfl, rfl, ?_⟩
      intro a ha
      have := List.all_eq_true.mp hall (a.2.1) (List.mem_map.mpr ⟨a, ha, rfl⟩)
      exact of_decide_eq_true this
    · rw [if_neg (by simpa using hall)] at hv
      simp at hv
  by_cases h1 : mode = "normalized"
  · rw [if_pos h1] at h
    by_cases h2 : arcs.length = 0
    · rw [if_pos h2] at h; simp at h
    · rw [if_neg h2] at h
      obtain ⟨ha, hb, hc, hd⟩ := hbound _ h
      refine ⟨List.replicate arcs.length (1 / (arcs.length : ℚ)), List.length_replicate _ _,
        ha, hb, hc, hd, Or.inl ⟨h1, ?_, rfl⟩⟩
      intro hnil
      rw [hnil] at h2
      simp at h2
  · rw [if_neg h1] at h
    by_cases h3 : mode = "average"
    · rw [if_pos h3] at h
      obtain ⟨ha, hb, hc, hd⟩ := hbound _ h
      exact ⟨(arcs.map fun a => a.2.1).map
          (fun dd => 1 / (((arcs.map fun a => a.2.1).count dd : ℕ) : ℚ)),
        by simp [List.length_map], ha, hb, hc, hd, Or.inr (Or.inl ⟨h1, h3, rfl⟩)⟩
    · rw [if_neg h3] at h
      obtain ⟨ha, hb, hc, hd⟩ := hbound _ h
      exact ⟨List.replicate arcs.length 1, List.length_replicate _ _,
        ha, hb, hc, hd, Or.inr (Or.inr ⟨h1, h3, rfl⟩)⟩

/-! ### Claims C1, C2, C3 -/

/-- C1 (amended): for every graph whose `buildArcNode` call succeeds — for the
recognized aggregation modes it fails only for `'normalized'` on a graph with
no arcs, where `float(1/len(col))` raises `ZeroDivisionError`, and when an arc
destination is not a valid node index, where the `coo_matrix` constructor
raises — the built incidence matrix has shape `(A, N)`, its rows are exactly
`0, …, A-1` with one stored entry each, and row `i`'s single entry sits at the
column given by arc `i`'s destination (second component) and carries a nonzero
value. -/
theorem c1_arcnode_structure (g : GraphObject) (m : Coo)
    (_hmode : g.aggregation_mode ∈ validModes)
    (h : g.buildArcNode = some m) :
    m.nrows = g.arcs.length ∧ m.ncols = g.nodes.length ∧
    (m.entries.map fun e => e.1) = List.range g.arcs.length ∧
    ∀ e ∈ m.entries, e.2.1 = (g.arcs.getD e.1 (0, 0, [])).2.1 ∧ e.2.2 ≠ 0 := by
  obtain ⟨vals, hvlen, hr, hcdim, hent, _, hmode3⟩ := buildArcNodeAux_some h
  have hlz : ((g.arcs.map fun a => a.2.1).zip vals).length = g.arcs.length := by
    rw [List.length_zip, List.length_map, hvlen]
    exact min_self _
  refine ⟨hr, hcdim, ?_, ?_⟩
  · rw [hent]
    apply List.map_fst_zip
    rw [List.length_range, hlz]
  · intro e he
    rw [hent, show List.range g.arcs.length
        = List.range ((g.arcs.map fun a => a.2.1).zip vals).length from by rw [hlz]] at he
    obtain ⟨hlt, hgd⟩ := mem_zip_range_getD (0, 0) _ e he
    rw [hlz] at hlt
    rw [getD_zip_of_lt _ _ _ 0 0 (by rw [List.length_map]; exact hlt)
      (by rw [hvlen]; exact hlt)] at hgd
    have h21 : e.2.1 = (g.arcs.map fun a => a.2.1).getD e.1 0 := by rw [← hgd]
    have h22 : e.2.2 = vals.getD e.1 0 := by rw [← hgd]
    constructor
    · rw [h21, getD_map_of_lt _ _ _ (0, 0, []) _ hlt]
    · rw [h22]
      have hA : g.arcs.length ≠ 0 := by
        intro h0
        rw [h0] at hlt
        omega
      rcases hmode3 with ⟨_, _, hv⟩ | ⟨_, _, hv⟩ | ⟨_, _, hv⟩
      · rw [hv, List.getD_eq_getElem _ _ (by rw [List.length_replicate]; exact hlt),
          List.getElem_replicate]
        exact one_div_ne_zero (Nat.cast_ne_zero.mpr hA)
      · rw [hv, getD_map_of_lt _ _ _ 0 _ (by rw [List.length_map]; exact hlt)]
        apply one_div_ne_zero
        apply Nat.cast_ne_zero.mpr
        have hmem : (g.arcs.map fun a => a.2.1).getD e.1 0 ∈ (g.arcs.map fun a => a.2.1) := by
          rw [List.getD_eq_getElem _ _ (by rw [List.length_map]; exact hlt)]
          exact List.getElem_mem _
        have := List.count_pos_iff.mpr hmem
        omega
      · rw [hv, List.getD_eq_getElem _ _ (by rw [List.length_replicate]; exact hlt),
          List.getElem_replicate]
        exact one_ne_zero

/-- C1 counterexample to the claim as stated: for the recognized mode
`'normalized'` and a perfectly legal graph that happens to have no arcs,
`buildArcNode` builds no matrix at all — `float(1 / len(col))` divides by
zero — and the constructor call with those arguments raises instead of
producing a graph.  So it is not true that for every graph and every
recognized mode the built matrix has shape `(A, N)`. -/
theorem c1_counterexample :
    buildArcNodeAux [] 1 "normalized" = none ∧
    initG [[0]] [] [] "n" none none (Sw.scalar 1) none none "normalized" =
      Except.error "ZeroDivisionError or ValueError in buildArcNode" := by
  constructor <;> rfl

/-- Concrete one-arc graph in `'sum'` mode, for the C1 witness. -/
def gW1 : GraphObject :=
  { nodes := [[0]], arcs := [(0, 0, [])], targets := [[0]], set_mask := [true],
    output_mask := [true], sample_weights := [1], aggregation_mode := "sum",
    ArcNode := default, Adjacency := default, NodeGraph := default }

/-- The incidence matrix `buildArcNode` computes for `gW1`. -/
def mW1 : Coo := { nrows := 1, ncols := 1, entries := [(0, 0, 1)] }

/-- Witness for `c1_arcnode_structure` at a concrete one-arc graph in `'sum'`
mode. -/
theorem c1_witness :
    gW1.buildArcNode = some mW1 ∧
    mW1.nrows = gW1.arcs.length ∧ mW1.ncols = gW1.nodes.length ∧
    (mW1.entries.map fun e => e.1) = List.range gW1.arcs.length ∧
    ∀ e ∈ mW1.entries, e.2.1 = (gW1.arcs.getD e.1 (0, 0, [])).2.1 ∧ e.2.2 ≠ 0 := by
  have hb : gW1.buildArcNode = some mW1 := rfl
  exact ⟨hb, c1_arcnode_structure gW1 mW1 (by decide) hb⟩

/-- C2: under `'average'` aggregation, the weights of the arcs whose
destination is a node of nonzero in-degree sum to exactly 1, and each such
weight is 1 divided by the in-degree of that destination. -/
theorem c2_average_sums (g : GraphObject) (m : Coo)
    (hmode : g.aggregation_mode = "average")
    (h : g.buildArcNode = some m) (v : ℕ) (hv : 0 < g.inDegree v) :
    ((m.entries.filter fun e => decide (e.2.1 = v)).map fun e => e.2.2).sum = 1 ∧
    ∀ e ∈ m.entries, e.2.1 = v → e.2.2 = 1 / (g.inDegree v : ℚ) := by
  rw [GraphObject.buildArcNode, hmode] at h
  obtain ⟨vals, hvlen, _, _, hent, _, hmode3⟩ := buildArcNodeAux_some h
  rcases hmode3 with ⟨habs, _, _⟩ | ⟨_, _, hv2⟩ | ⟨_, habs, _⟩
  · exact absurd habs (by decide)
  swap
  · exact absurd rfl habs
  have hlz : ((g.arcs.map fun a => a.2.1).zip vals).length = g.arcs.length := by
    rw [List.length_zip, List.length_map, hvlen]
    exact min_self _
  have hpoint : ∀ e ∈ m.entries, e.2.1 = v → e.2.2 = 1 / (g.inDegree v : ℚ) := by
    intro e he hev
    rw [hent] at he
    have hsnd := (List.of_mem_zip he).2
    have := snd_eq_of_mem_zip_map _ _ vals hv2 e.2 hsnd
    rw [this, hev]
    rfl
  refine ⟨?_, hpoint⟩
  have hlen : ((m.entries.filter fun e => decide (e.2.1 = v)).map fun e => e.2.2).length
      = g.inDegree v := by
    rw [List.length_map, hent]
    have := length_filter_zip_snd (fun x : ℕ × ℚ => decide (x.1 = v))
      (List.range g.arcs.length) ((g.arcs.map fun a => a.2.1).zip vals)
    simp only [] at this
    rw [this, List.length_range, ← hlz, List.take_length,
      length_filter_zip_count v _ vals (by rw [hvlen, List.length_map])]
    rfl
  have hrep : ((m.entries.filter fun e => decide (e.2.1 = v)).map fun e => e.2.2)
      = List.replicate (g.inDegree v) (1 / (g.inDegree v : ℚ)) := by
    rw [List.eq_replicate_iff]
    refine ⟨hlen, ?_⟩
    intro b hbm
    obtain ⟨e, hef, hev⟩ := List.mem_map.mp hbm
    obtain ⟨hem, hp⟩ := List.mem_filter.mp hef
    rw [← hev]
    exact hpoint e hem (of_decide_eq_true hp)
  rw [hrep, List.sum_replicate, nsmul_eq_mul]
  exact mul_one_div_cancel (Nat.cast_ne_zero.mpr (by omega))

/-- Concrete graph with two arcs into node 1, in `'average'` mode, for the C2
witness. -/
def gW2 : GraphObject :=
  { nodes := [[0], [0]], arcs := [(0, 1, []), (1, 1, [])], targets := [[0]],
    set_mask := [true, true], output_mask := [true, true], sample_weights := [1],
    aggregation_mode := "average", ArcNode := default, Adjacency := default,
    NodeGraph := default }

/-- The incidence matrix `buildArcNode` computes for `gW2`. -/
def mW2 : Coo := { nrows := 2, ncols := 2, entries := [(0, 1, 1/2), (1, 1, 1/2)] }

/-- Witness for `c2_average_sums`: two arcs into node 1, each weighted 1/2. -/
theorem c2_witness :
    gW2.buildArcNode = some mW2 ∧ 0 < gW2.inDegree 1 ∧
    ((mW2.entries.filter fun e => decide (e.2.1 = 1)).map fun e => e.2.2).sum = 1 ∧
    ∀ e ∈ mW2.entries, e.2.1 = 1 → e.2.2 = 1 / (gW2.inDegree 1 : ℚ) := by
  have hb : gW2.buildArcNode = some mW2 := by
    simp [GraphObject.buildArcNode, gW2, mW2, buildArcNodeAux, List.range, List.range.loop]
  have hc := c2_average_sums gW2 mW2 rfl hb 1 (by decide)
  exact ⟨hb, by decide, hc.1, hc.2⟩

/-- C3: under `'normalized'` aggregation every stored incidence weight is
exactly `1/A` where `A` is the arc count, and it is nonzero. -/
theorem c3_normalized_weights (g : GraphObject) (m : Coo)
    (hmode : g.aggregation_mode = "normalized")
    (h : g.buildArcNode = some m) :
    ∀ e ∈ m.entries, e.2.2 = 1 / (g.arcs.length : ℚ) ∧ e.2.2 ≠ 0 := by
  rw [GraphObject.buildArcNode, hmode] at h
  obtain ⟨vals, _, _, _, hent, _, hmode3⟩ := buildArcNodeAux_some h
  rcases hmode3 with ⟨_, hne, hv2⟩ | ⟨habs, _, _⟩ | ⟨habs, _, _⟩
  · intro e he
    rw [hent] at he
    have hsnd := (List.of_mem_zip (List.of_mem_zip he).2).2
    rw [hv2] at hsnd
    have heq := List.eq_of_mem_replicate hsnd
    refine ⟨heq, ?_⟩
    rw [heq]
    apply one_div_ne_zero
    apply Nat.cast_ne_zero.mpr
    intro h0
    exact hne (List.length_eq_zero.mp h0)
  · exact absurd rfl habs
  · exact absurd rfl habs

/-- Concrete two-arc graph in `'normalized'` mode, for the C3 witness. -/
def gW3 : GraphObject :=
  { nodes := [[0], [0]], arcs := [(0, 1, []), (1, 0, [])], targets := [[0]],
    set_mask := [true, true], output_mask := [true, true], sample_weights := [1],
    aggregation_mode := "normalized", ArcNode := default, Adjacency := default,
    NodeGraph := default }

/-- The incidence matrix `buildArcNode` computes for `gW3`. -/
def mW3 : Coo := { nrows := 2, ncols := 2, entries := [(0, 1, 1/2), (1, 0, 1/2)] }

/-- Witness for `c3_normalized_weights`: two arcs, each weighted 1/2. -/
theorem c3_witness :
    gW3.buildArcNode = some mW3 ∧
    ∀ e ∈ mW3.entries, e.2.2 = 1 / (gW3.arcs.length : ℚ) ∧ e.2.2 ≠ 0 := by
  have hb : gW3.buildArcNode = some mW3 := by
    simp [GraphObject.buildArcNode, gW3, mW3, buildArcNodeAux, List.range, List.range.loop]
  exact ⟨hb, c3_normalized_weights gW3 mW3 rfl hb⟩

/-! ### Constructor anatomy, merge (C4), validation errors (C7, C9) -/

/-- What a successful constructor run pins down: the array arguments are
stored as passed, the mode is stored, the sample weights are the broadcast of
the argument, and explicitly passed masks are stored as passed. -/
theorem initG_ok_fields {nodes : List (List ℚ)} {arcs : List Arc}
    {targets : List (List ℚ)} {pb : String} {sm om : Option (List Bool)} {sw : Sw}
    {ng an : Option Coo} {am : String} {g : GraphObject}
    (h : initG nodes arcs targets pb sm om sw ng an am = Except.ok g) :
    g.nodes = nodes ∧ g.arcs = arcs ∧ g.targets = targets ∧
    g.aggregation_mode = am ∧
    broadcastSw sw targets.length = some g.sample_weights ∧
    (∀ mm, sm = some mm → g.set_mask = mm) ∧
    (∀ mm, om = some mm → g.output_mask = mm) := by
  unfold initG at h
  cases hbr : broadcastSw sw targets.length with
  | none => rw [hbr] at h; simp at h
  | some sw2 =>
  simp only [hbr] at h
  cases hsm : resolveSetMask sm pb nodes.length arcs.length with
  | none => rw [hsm] at h; simp at h
  | some sm2 =>
  simp only [hsm] at h
  by_cases hlen : sm2.length ≠ (om.getD (List.replicate sm2.length true)).length
  · rw [if_pos hlen] at h; simp at h
  · rw [if_neg hlen] at h
    by_cases hvm : am ∉ validModes
    · rw [if_pos hvm] at h; simp at h
    · rw [if_neg hvm] at h
      cases han : resolveArcNode an arcs nodes.length am with
      | none => rw [han] at h; simp at h
      | some an2 =>
      simp only [han] at h
      cases hadj : buildAdjacencyAux arcs nodes.length an2 with
      | none => rw [hadj] at h; simp at h
      | some adj =>
      simp only [hadj] at h
      cases hng : resolveNodeGraph ng pb nodes.length with
      | none => rw [hng] at h; simp at h
      | some ngm =>
      simp only [hng] at h
      injection h with h2
      subst h2
      refine ⟨rfl, rfl, rfl, rfl, rfl, ?_, ?_⟩
      · intro mm hm
        subst hm
        simp only [resolveSetMask] at hsm
        injection hsm with h3
        exact h3.symm
      · intro mm hm
        subst hm
        simp

/-- Evaluation of `merge` on a two-element list: shifts `0` and `N1` are
applied and all arrays are concatenated, then handed to the constructor. -/
theorem mergeG_pair (g1 g2 : GraphObject) (pb am : String) :
    mergeG [g1, g2] pb am =
      initG (g1.nodes ++ g2.nodes) (g1.arcs ++ g2.arcs.map (shiftArc g1.nodes.length))
        (g1.targets ++ g2.targets) pb (some (g1.set_mask ++ g2.set_mask))
        (some (g1.output_mask ++ g2.output_mask))
        (Sw.vector (g1.sample_weights ++ g2.sample_weights))
        (some (blockDiag [g1.NodeGraph, g2.NodeGraph])) none am := by
  have hs : shiftArc 0 = (fun a => a) := funext fun a => rfl
  simp [mergeG, cumNodes, hs, List.enum, List.enumFrom]

/-- C4: a successful `merge([g1, g2], …)` yields a graph with `N1 + N2`
nodes, arcs equal to `g1`'s arcs unchanged followed by `g2`'s arcs with both
endpoints shifted by `N1`, and targets, masks and sample weights concatenated
in list order. -/
theorem c4_merge_pair (g1 g2 : GraphObject) (pb am : String) (g : GraphObject)
    (hw1 : g1.sample_weights.length = g1.targets.length)
    (hw2 : g2.sample_weights.length = g2.targets.length)
    (h : mergeG [g1, g2] pb am = Except.ok g) :
    g.nodes.length = g1.nodes.length + g2.nodes.length ∧
    g.arcs = g1.arcs ++ g2.arcs.map (shiftArc g1.nodes.length) ∧
    g.targets = g1.targets ++ g2.targets ∧
    g.set_mask = g1.set_mask ++ g2.set_mask ∧
    g.output_mask = g1.output_mask ++ g2.output_mask ∧
    g.sample_weights = g1.sample_weights ++ g2.sample_weights := by
  rw [mergeG_pair] at h
  obtain ⟨hn, ha, ht, _, hbr, hsmf, homf⟩ := initG_ok_fields h
  have hlen : (g1.sample_weights ++ g2.sample_weights).length
      = (g1.targets ++ g2.targets).length := by
    rw [List.length_append, List.length_append, hw1, hw2]
  simp only [broadcastSw, hlen, if_pos, Option.some.injEq] at hbr
  exact ⟨by rw [hn, List.length_append], ha, ht, hsmf _ rfl, homf _ rfl, hbr.symm⟩

/-- First input graph for the C4 witness. -/
def gW4a : GraphObject :=
  { nodes := [[1]], arcs := [(0, 0, [])], targets := [[1]], set_mask := [true],
    output_mask := [true], sample_weights := [1], aggregation_mode := "sum",
    ArcNode := default, Adjacency := default,
    NodeGraph := { nrows := 1, ncols := 0, entries := [] } }

/-- Second input graph for the C4 witness. -/
def gW4b : GraphObject :=
  { nodes := [[2]], arcs := [(0, 0, [])], targets := [[2]], set_mask := [true],
    output_mask := [true], sample_weights := [1], aggregation_mode := "sum",
    ArcNode := default, Adjacency := default,
    NodeGraph := { nrows := 1, ncols := 0, entries := [] } }

/-- The graph `merge([gW4a, gW4b], 'n', 'sum')` produces. -/
def gW4m : GraphObject :=
  { nodes := [[1], [2]], arcs := [(0, 0, []), (1, 1, [])], targets := [[1], [2]],
    set_mask := [true, true], output_mask := [true, true], sample_weights := [1, 1],
    aggregation_mode := "sum",
    ArcNode := { nrows := 2, ncols := 2, entries := [(0, 0, 1), (1, 1, 1)] },
    Adjacency := { nrows := 2, ncols := 2, entries := [(0, 0, 1), (1, 1, 1)] },
    NodeGraph := { nrows := 2, ncols := 0, entries := [] } }

/-- Witness for `c4_merge_pair` on two concrete one-node graphs. -/
theorem c4_witness :
    mergeG [gW4a, gW4b] "n" "sum" = Except.ok gW4m ∧
    gW4m.nodes.length = gW4a.nodes.length + gW4b.nodes.length ∧
    gW4m.arcs = gW4a.arcs ++ gW4b.arcs.map (shiftArc gW4a.nodes.length) ∧
    gW4m.targets = gW4a.targets ++ gW4b.targets ∧
    gW4m.set_mask = gW4a.set_mask ++ gW4b.set_mask ∧
    gW4m.output_mask = gW4a.output_mask ++ gW4b.output_mask ∧
    gW4m.sample_weights = gW4a.sample_weights ++ gW4b.sample_weights := by
  have hm : mergeG [gW4a, gW4b] "n" "sum" = Except.ok gW4m := rfl
  exact ⟨hm, c4_merge_pair gW4a gW4b "n" "sum" gW4m (by decide) (by decide) hm⟩

/-- C7: a mask-length mismatch makes the constructor raise the dedicated
`ValueError`; an unrecognized aggregation mode makes the constructor raise its
`ValueError`; `setAggregation` raises the same error on an unrecognized mode.
All three are raised at the point of the call. -/
theorem c7_validation_errors :
    (∀ (nodes : List (List ℚ)) (arcs : List Arc) (targets : List (List ℚ))
       (pb : String) (sm om : List Bool) (w : ℚ) (ng an : Option Coo) (am : String),
       sm.length ≠ om.length →
       initG nodes arcs targets pb (some sm) (some om) (Sw.scalar w) ng an am =
         Except.error "Error - len(<set_mask>) != len(<output_mask>)") ∧
    (∀ (nodes : List (List ℚ)) (arcs : List Arc) (targets : List (List ℚ))
       (pb : String) (sm om : List Bool) (w : ℚ) (ng an : Option Coo) (am : String),
       sm.length = om.length → am ∉ validModes →
       initG nodes arcs targets pb (some sm) (some om) (Sw.scalar w) ng an am =
         Except.error "ERROR: Unknown aggregation mode") ∧
    (∀ (g : GraphObject) (am : String), am ∉ validModes →
       g.setAggregation am = (Except.error "ERROR: Unknown aggregation mode", g)) := by
  refine ⟨?_, ?_, ?_⟩
  · intro nodes arcs targets pb sm om w ng an am hlen
    simp [initG, broadcastSw, resolveSetMask, hlen]
  · intro nodes arcs targets pb sm om w ng an am hlen hvm
    simp [initG, broadcastSw, resolveSetMask, hlen, hvm]
  · intro g am hvm
    simp [GraphObject.setAggregation, hvm]

/-- Witness for `c7_validation_errors`: a length-1 `set_mask` against a
length-0 `output_mask`, and the mode string `'bogus'`. -/
theorem c7_witness :
    initG [[0]] [] [] "n" (some [true]) (some []) (Sw.scalar 1) none none "sum" =
      Except.error "Error - len(<set_mask>) != len(<output_mask>)" ∧
    initG [[0]] [] [] "n" (some [true]) (some [true]) (Sw.scalar 1) none none "bogus" =
      Except.error "ERROR: Unknown aggregation mode" ∧
    (default : GraphObject).setAggregation "bogus" =
      (Except.error "ERROR: Unknown aggregation mode", default) :=
  ⟨c7_validation_errors.1 _ _ _ _ _ _ _ _ _ _ (by decide),
    c7_validation_errors.2.1 _ _ _ _ _ _ _ _ _ _ rfl (by decide),
    c7_validation_errors.2.2 _ _ (by decide)⟩

/-- C9: `setAggregation` with an unrecognized mode fails before assigning any
state — the returned state is exactly the input graph, so `aggregation_mode`,
`ArcNode` and `Adjacency` (and every other field) are untouched. -/
theorem c9_setAggregation_atomic (g : GraphObject) (am : String)
    (h : am ∉ validModes) :
    g.setAggregation am = (Except.error "ERROR: Unknown aggregation mode", g) := by
  simp [GraphObject.setAggregation, h]

/-- Witness for `c9_setAggregation_atomic` at the mode string `'mean'`. -/
theorem c9_witness :
    (default : GraphObject).setAggregation "mean" =
      (Except.error "ERROR: Unknown aggregation mode", default) :=
  c9_setAggregation_atomic default "mean" (by decide)

/-! ### Round-trip persistence (C5) -/

/-- The graph the constructor builds for two nodes, one arc `0 → 1`, in
`'sum'` mode — the worked example used to exhibit the missing transpose. -/
def gBug : GraphObject :=
  { nodes := [[0], [0]], arcs := [(0, 1, [])], targets := [[0]],
    set_mask := [true, true], output_mask := [true, true], sample_weights := [1],
    aggregation_mode := "sum",
    ArcNode := { nrows := 1, ncols := 2, entries := [(0, 1, 1)] },
    Adjacency := { nrows := 2, ncols := 2, entries := [(0, 1, 1)] },
    NodeGraph := { nrows := 1, ncols := 0, entries := [] } }

/-- C6, evaluated at the failing input: `COO2SparseTensor` keeps the indices
as `zip(coo.row, coo.col)` and the dense shape as `coo.shape`, so the
`GraphTensor`'s `ArcNode` for `gBug` still has shape `(A, N) = (1, 2)` with
its entry at `(0, 1)` — not the transposed `(N, A) = (2, 1)` with the entry at
`(1, 0)` that the claim (and the method's own docstring, lines 387 and
412-413, 422) promises.  The reordering also never deduplicates. -/
theorem c6_no_transpose :
    initG [[0], [0]] [(0, 1, [])] [[0]] "n" none none (Sw.scalar 1) none none "sum" =
      Except.ok gBug ∧
    (GraphTensor.fromGraphObject gBug).ArcNode =
      { dense_shape := (1, 2), entries := [(0, 1, 1)] } ∧
    (GraphTensor.fromGraphObject gBug).Adjacency =
      { dense_shape := (2, 2), entries := [(0, 1, 1)] } ∧
    (GraphTensor.fromGraphObject gBug).ArcNode ≠
      { dense_shape := (2, 1), entries := [(1, 0, 1)] } := by
  refine ⟨rfl, rfl, rfl, ?_⟩
  intro hc
  have hsh : ((1 : ℕ), (2 : ℕ)) = ((2 : ℕ), (1 : ℕ)) := congrArg (fun t => t.dense_shape) hc
  simp at hsh

/-! ### NodeGraph columns (C8) -/

/-- The stored values of column `j` of a sparse matrix. -/
def colVals (m : Coo) (j : ℕ) : List ℚ :=
  (m.entries.filter fun e => decide (e.2.1 = j)).map fun e => e.2.2

/-- Anatomy of `buildNodeGraph` in the graph-based case. -/
theorem buildNodeGraphAux_g {n : ℕ} {mm : Coo} (h : buildNodeGraphAux "g" n = some mm) :
    n ≠ 0 ∧ mm = { nrows := n, ncols := 1,
                   entries := (List.range n).map (fun i => (i, 0, (1 : ℚ) / (n : ℚ))) } := by
  have hred : buildNodeGraphAux "g" n = if n = 0 then none
      else some { nrows := n, ncols := 1,
                  entries := (List.range n).map (fun i => (i, 0, (1 : ℚ) / (n : ℚ))) } := rfl
  rw [hred] at h
  by_cases h0 : n = 0
  · rw [if_pos h0] at h
    simp at h
  · rw [if_neg h0] at h
    exact ⟨h0, ((Option.some.injEq _ _).mp h).symm⟩

/-- Column `j` of a block-diagonal stack of single-column matrices is exactly
the value list of the `j`-th block. -/
theorem blockDiag_colVals :
    ∀ (mats : List Coo), (∀ mm ∈ mats, mm.ncols = 1 ∧ ∀ e ∈ mm.entries, e.2.1 = 0) →
      ∀ j, j < mats.length →
        colVals (blockDiag mats) j = (mats.getD j default).entries.map (fun e => e.2.2) := by
  intro mats
  induction mats with
  | nil =>
      intro _ j hj
      simp at hj
  | cons m ms ih =>
      intro hwf j hj
      have hm := hwf m (List.mem_cons_self m ms)
      cases j with
      | zero =>
          simp only [colVals, blockDiag, List.filter_append, List.map_append]
          have h1 : m.entries.filter (fun e => decide (e.2.1 = 0)) = m.entries := by
            rw [List.filter_eq_self]
            intro e he
            exact decide_eq_true (hm.2 e he)
          have h2 : (((blockDiag ms).entries.map
              (fun e => (e.1 + m.nrows, e.2.1 + m.ncols, e.2.2))).filter
              (fun e => decide (e.2.1 = 0))) = [] := by
            rw [List.filter_eq_nil_iff]
            intro e he
            obtain ⟨e0, _, rfl⟩ := List.mem_map.mp he
            simp [hm.1]
          rw [h1, h2]
          simp
      | succ j2 =>
          simp only [colVals, blockDiag, List.filter_append, List.map_append]
          have h1 : m.entries.filter (fun e => decide (e.2.1 = j2 + 1)) = [] := by
            rw [List.filter_eq_nil_iff]
            intro e he
            have := hm.2 e he
            simp [this]
          have hcong : ∀ e0 ∈ (blockDiag ms).entries,
              (decide (e0.2.1 + m.ncols = j2 + 1)) = (decide (e0.2.1 = j2)) := by
            intro e0 _
            rw [hm.1]
            exact decide_eq_decide.mpr (by omega)
          have h2 : (((blockDiag ms).entries.map
              (fun e => (e.1 + m.nrows, e.2.1 + m.ncols, e.2.2))).filter
              (fun e => decide (e.2.1 = j2 + 1)))
              = ((blockDiag ms).entries.filter (fun e => decide (e.2.1 = j2))).map
                (fun e => (e.1 + m.nrows, e.2.1 + m.ncols, e.2.2)) := by
            rw [List.filter_map]
            congr 1
            apply List.filter_congr
            intro e0 he0
            simpa using hcong e0 he0
          rw [h1, h2, List.map_map]
          have hih := ih (fun mm hmm => hwf mm (List.mem_cons_of_mem m hmm)) j2
            (by simpa using hj)
          simp only [colVals] at hih
          rw [show ((fun e : ℕ × ℕ × ℚ => e.2.2) ∘
            (fun e : ℕ × ℕ × ℚ => (e.1 + m.nrows, e.2.1 + m.ncols, e.2.2)))
            = (fun e : ℕ × ℕ × ℚ => e.2.2) from rfl]
          simp only [List.map_nil, List.nil_append, List.getD_cons_succ]
          exact hih

/-- `Forall₂` transported to positional access. -/
theorem forall₂_getD {α β : Type*} {R : α → β → Prop} {l1 : List α} {l2 : List β}
    (h : List.Forall₂ R l1 l2) (d1 : α) (d2 : β) :
    ∀ j, j < l1.length → R (l1.getD j d1) (l2.getD j d2) := by
  induction h with
  | nil =>
      intro j hj
      simp at hj
  | cons hab hrest ihh =>
      intro j hj
      cases j with
      | zero => simpa using hab
      | succ j2 =>
          rw [List.getD_cons_succ, List.getD_cons_succ]
          exact ihh j2 (by simpa using hj)

/-- C8 (amended): for graph-based `GraphObject`s — a single graph's
`buildNodeGraph`, or the block-diagonal `NodeGraph` `merge` assembles from
them — every stored entry of column `j` equals `1/N_j` where `N_j` is the
node count of sub-graph `j`, and the column therefore sums to `1` (not to the
count of nodes mapped to the sub-graph, as the claim stated; the number of
stored entries in the column is that count). -/
theorem c8_nodegraph_columns (gs : List GraphObject) (mats : List Coo)
    (h : List.Forall₂ (fun g mm => buildNodeGraphAux "g" g.nodes.length = some mm) gs mats)
    (j : ℕ) (hj : j < gs.length) :
    colVals (blockDiag mats) j
      = List.replicate (gs.getD j default).nodes.length
          (1 / ((gs.getD j default).nodes.length : ℚ)) ∧
    (colVals (blockDiag mats) j).length = (gs.getD j default).nodes.length ∧
    (colVals (blockDiag mats) j).sum = 1 := by
  have hwf : ∀ mm ∈ mats, mm.ncols = 1 ∧ ∀ e ∈ mm.entries, e.2.1 = 0 := by
    clear hj
    induction h with
    | nil => simp
    | cons hab hrest ihh =>
        intro mm hmm
        rcases List.mem_cons.mp hmm with rfl | hmem
        · obtain ⟨_, hform⟩ := buildNodeGraphAux_g hab
          subst hform
          refine ⟨rfl, ?_⟩
          intro e he
          obtain ⟨i, _, rfl⟩ := List.mem_map.mp he
          rfl
        · exact ihh mm hmem
  have hj2 : j < mats.length := by
    rw [← List.Forall₂.length_eq h]
    exact hj
  have hcol := blockDiag_colVals mats hwf j hj2
  have hR := forall₂_getD h default default j hj
  obtain ⟨hn0, hform⟩ := buildNodeGraphAux_g hR
  rw [hcol, hform]
  have hmapped : ((List.range (gs.getD j default).nodes.length).map
      (fun i => (i, 0, (1 : ℚ) / ((gs.getD j default).nodes.length : ℚ)))).map
      (fun e : ℕ × ℕ × ℚ => e.2.2)
      = List.replicate (gs.getD j default).nodes.length
          (1 / ((gs.getD j default).nodes.length : ℚ)) := by
    rw [List.map_map, List.eq_replicate_iff]
    constructor
    · rw [List.length_map, List.length_range]
    · intro b hb
      obtain ⟨i, _, rfl⟩ := List.mem_map.mp hb
      rfl
  refine ⟨hmapped, ?_, ?_⟩
  · rw [hmapped, List.length_replicate]
  · rw [hmapped, List.sum_replicate, nsmul_eq_mul]
    exact mul_one_div_cancel (Nat.cast_ne_zero.mpr hn0)

/-- C8 counterexample to the claim as stated: a two-node graph-based graph.
Column 0 of its `NodeGraph` holds two entries of value 1/2: the number of
nodes mapped to the sub-graph is 2, but the column sums to 1 ≠ 2. -/
theorem c8_counterexample :
    buildNodeGraphAux "g" 2 =
      some { nrows := 2, ncols := 1, entries := [(0, 0, 1/2), (1, 0, 1/2)] } ∧
    (colVals { nrows := 2, ncols := 1, entries := [(0, 0, 1/2), (1, 0, 1/2)] } 0).length
      = 2 ∧
    (colVals { nrows := 2, ncols := 1, entries := [(0, 0, 1/2), (1, 0, 1/2)] } 0).sum
      = 1 ∧
    (1 : ℚ) ≠ 2 := by
  refine ⟨?_, rfl, ?_, by norm_num⟩
  · simp [buildNodeGraphAux, List.range_succ]
  · simp [colVals]
    norm_num

/-- First sub-graph for the C8 witness: one node. -/
def gW8a : GraphObject :=
  { nodes := [[5]], arcs := [], targets := [[1]], set_mask := [true],
    output_mask := [true], sample_weights := [1], aggregation_mode := "sum",
    ArcNode := default, Adjacency := default, NodeGraph := default }

/-- Second sub-graph for the C8 witness: two nodes. -/
def gW8b : GraphObject :=
  { nodes := [[6], [7]], arcs := [], targets := [[1]], set_mask := [true, true],
    output_mask := [true, true], sample_weights := [1], aggregation_mode := "sum",
    ArcNode := default, Adjacency := default, NodeGraph := default }

/-- Witness for `c8_nodegraph_columns` on a merged pair of sub-graphs with 1
and 2 nodes, at column 1. -/
theorem c8_witness :
    List.Forall₂ (fun g mm => buildNodeGraphAux "g" g.nodes.length = some mm)
      [gW8a, gW8b]
      [{ nrows := 1, ncols := 1, entries := [(0, 0, 1)] },
       { nrows := 2, ncols := 1, entries := [(0, 0, 1/2), (1, 0, 1/2)] }] ∧
    colVals (blockDiag [{ nrows := 1, ncols := 1, entries := [(0, 0, 1)] },
        { nrows := 2, ncols := 1, entries := [(0, 0, 1/2), (1, 0, 1/2)] }]) 1
      = List.replicate ([gW8a, gW8b].getD 1 default).nodes.length
          (1 / (([gW8a, gW8b].getD 1 default).nodes.length : ℚ)) ∧
    (colVals (blockDiag [{ nrows := 1, ncols := 1, entries := [(0, 0, 1)] },
        { nrows := 2, ncols := 1, entries := [(0, 0, 1/2), (1, 0, 1/2)] }]) 1).length
      = ([gW8a, gW8b].getD 1 default).nodes.length ∧
    (colVals (blockDiag [{ nrows := 1, ncols := 1, entries := [(0, 0, 1)] },
        { nrows := 2, ncols := 1, entries := [(0, 0, 1/2), (1, 0, 1/2)] }]) 1).sum = 1 := by
  have h1 : buildNodeGraphAux "g" gW8a.nodes.length =
      some { nrows := 1, ncols := 1, entries := [(0, 0, 1)] } := by
    simp [buildNodeGraphAux, gW8a, List.range_succ]
  have h2 : buildNodeGraphAux "g" gW8b.nodes.length =
      some { nrows := 2, ncols := 1, entries := [(0, 0, 1/2), (1, 0, 1/2)] } := by
    simp [buildNodeGraphAux, gW8b, List.range_succ]
  have hf : List.Forall₂ (fun g mm => buildNodeGraphAux "g" g.nodes.length = some mm)
      [gW8a, gW8b]
      [{ nrows := 1, ncols := 1, entries := [(0, 0, 1)] },
       { nrows := 2, ncols := 1, entries := [(0, 0, 1/2), (1, 0, 1/2)] }] :=
    List.Forall₂.cons h1 (List.Forall₂.cons h2 List.Forall₂.nil)
  have hc := c8_nodegraph_columns [gW8a, gW8b] _ hf 1 (by decide)
  exact ⟨hf, hc.1, hc.2.1, hc.2.2⟩

/-! ### Frame property of merge (C10) -/

theorem readCell_append_lt (s ext : Store) (r : ℕ) (hr : r < s.length) :
    readCell (s ++ ext) r = readCell s r := by
  unfold readCell
  rw [List.getD_eq_getElem?_getD, List.getD_eq_getElem?_getD, List.getElem?_append_left hr]

theorem getDataOne_spec (s : Store) (g : GraphRefs) :
    (∃ ext, (getDataOne s g).1 = s ++ ext) ∧ s.length ≤ (getDataOne s g).2.arcs := by
  constructor
  · have h : ∀ a b c d e f p : Cell,
        s ++ [a] ++ [b] ++ [c] ++ [d] ++ [e] ++ [f] ++ [p]
          = s ++ ([a] ++ [b] ++ [c] ++ [d] ++ [e] ++ [f] ++ [p]) := by
      intro a b c d e f p
      simp [List.append_assoc]
    exact ⟨_, h _ _ _ _ _ _ _⟩
  · show s.length ≤ (s ++ [readCell s g.nodes]).length
    simp

theorem getDataAll_cons (s : Store) (g : GraphRefs) (gs : List GraphRefs) :
    getDataAll s (g :: gs) = ((getDataAll (getDataOne s g).1 gs).1,
      (getDataOne s g).2 :: (getDataAll (getDataOne s g).1 gs).2) := rfl

theorem getDataAll_spec : ∀ (gs : List GraphRefs) (s : Store),
    (∃ ext, (getDataAll s gs).1 = s ++ ext) ∧
    ∀ c ∈ (getDataAll s gs).2, s.length ≤ c.arcs := by
  intro gs
  induction gs with
  | nil =>
      intro s
      exact ⟨⟨[], by simp [getDataAll]⟩, by simp [getDataAll]⟩
  | cons g gs ih =>
      intro s
      obtain ⟨⟨e1, he1⟩, harc⟩ := getDataOne_spec s g
      obtain ⟨⟨e2, he2⟩, hrest⟩ := ih (getDataOne s g).1
      constructor
      · refine ⟨e1 ++ e2, ?_⟩
        rw [getDataAll_cons]
        show (getDataAll (getDataOne s g).1 gs).1 = s ++ (e1 ++ e2)
        rw [he2, he1, List.append_assoc]
      · intro c hc
        rw [getDataAll_cons] at hc
        rcases List.mem_cons.mp hc with rfl | hmem
        · exact harc
        · have h2 := hrest c hmem
          have h3 : s.length ≤ (getDataOne s g).1.length := by
            rw [he1]
            simp
          omega

theorem shiftLoop_low : ∀ (ps : List (ℕ × ℚ)) (s : Store) (r : ℕ),
    (∀ p ∈ ps, r ≠ p.1) → readCell (shiftLoop s ps) r = readCell s r := by
  intro ps
  induction ps with
  | nil =>
      intro s r _
      rfl
  | cons p ps ih =>
      intro s r hne
      cases p with
      | mk p1 p2 =>
          show readCell (shiftLoop (shiftStep s p1 p2) ps) r = readCell s r
          rw [ih _ _ (fun q hq => hne q (List.mem_cons_of_mem _ hq))]
          unfold shiftStep readCell
          rw [List.getD_eq_getElem?_getD, List.getD_eq_getElem?_getD,
            List.getElem?_set_ne (Ne.symm (hne (p1, p2) (List.mem_cons_self _ _))),
            List.getD_eq_getElem?_getD]

/-- C10: the mutating phase of `merge` — gathering defensive copies through
the getters and shifting the endpoint columns of the arc copies in place —
leaves every pre-existing cell of the store untouched; in particular each
input graph's `nodes`, `arcs`, `targets`, masks, sample weights and
`NodeGraph` arrays read back unchanged. -/
theorem c10_merge_frame (s : Store) (gs : List GraphRefs) (shifts : List ℚ)
    (g : GraphRefs) (_hg : g ∈ gs)
    (hn : g.nodes < s.length) (ha : g.arcs < s.length) (ht : g.targets < s.length)
    (hsm : g.set_mask < s.length) (hom : g.output_mask < s.length)
    (hsw : g.sample_weights < s.length) (hng : g.nodegraph < s.length) :
    readCell ((mergeMutPhase s gs shifts).1) g.nodes = readCell s g.nodes ∧
    readCell ((mergeMutPhase s gs shifts).1) g.arcs = readCell s g.arcs ∧
    readCell ((mergeMutPhase s gs shifts).1) g.targets = readCell s g.targets ∧
    readCell ((mergeMutPhase s gs shifts).1) g.set_mask = readCell s g.set_mask ∧
    readCell ((mergeMutPhase s gs shifts).1) g.output_mask = readCell s g.output_mask ∧
    readCell ((mergeMutPhase s gs shifts).1) g.sample_weights
      = readCell s g.sample_weights ∧
    readCell ((mergeMutPhase s gs shifts).1) g.nodegraph = readCell s g.nodegraph := by
  have hlow : ∀ r, r < s.length →
      readCell ((mergeMutPhase s gs shifts).1) r = readCell s r := by
    intro r hr
    obtain ⟨⟨ext, hext⟩, harcs⟩ := getDataAll_spec gs s
    have hne : ∀ p ∈ ((getDataAll s gs).2.map (fun c => c.arcs)).zip shifts, r ≠ p.1 := by
      intro p hp
      have hfst := (List.of_mem_zip hp).1
      obtain ⟨c, hc, hceq⟩ := List.mem_map.mp hfst
      have hge := harcs c hc
      omega
    show readCell (shiftLoop (getDataAll s gs).1
      (((getDataAll s gs).2.map (fun c => c.arcs)).zip shifts)) r = readCell s r
    rw [shiftLoop_low _ _ _ hne, hext]
    exact readCell_append_lt s ext r hr
  exact ⟨hlow _ hn, hlow _ ha, hlow _ ht, hlow _ hsm, hlow _ hom, hlow _ hsw, hlow _ hng⟩

/-- Witness for `c10_merge_frame`: a one-cell store holding a single arcs
array shared by all seven references of one input graph. -/
theorem c10_witness :
    readCell ((mergeMutPhase [[[1, 2, 3]]] [⟨0, 0, 0, 0, 0, 0, 0⟩] [4]).1) 0
        = readCell [[[1, 2, 3]]] 0 ∧
      readCell ((mergeMutPhase [[[1, 2, 3]]] [⟨0, 0, 0, 0, 0, 0, 0⟩] [4]).1) 0
        = readCell [[[1, 2, 3]]] 0 := by
  have h := c10_merge_frame [[[1, 2, 3]]] [⟨0, 0, 0, 0, 0, 0, 0⟩] [4] ⟨0, 0, 0, 0, 0, 0, 0⟩
    (by decide) (by decide) (by decide) (by decide) (by decide) (by decide) (by decide)
    (by decide)
  exact ⟨h.1, h.2.1⟩

end GNNGraph
